import Mathlib

/-!
Shallow embedding of the external-id rotation lambda
(`src/lambda/external-id-rotation-lambda/index.ts`) of the repository
`cdk-iam-role-external-access`, together with the secret-store contract the
orchestrator drives.

Modelling conventions:
* JavaScript runtime values that can reach `validateExternalId` (the
  `externalId` field of a parsed JSON document) are modelled by `JsValue`.
  Numbers are modelled as integers (no floating point is relevant: the only
  use of a number is the truthiness test `!externalId`, and JSON numerals in
  these payloads are exact).
* Strings are Lean strings (sequences of Unicode scalar values);
  `String.length` counts scalars where JavaScript counts UTF-16 units — the
  two agree on all values the protocol itself produces (ASCII).
* The secret store (AWS Secrets Manager) is an external collaborator, not
  code of this repository; its per-call semantics is modelled from the
  spec's store contract (§4.3/§6): versioned store, each stage label
  (`CURRENT`, `PENDING`) attached to at most one version, put-pending
  idempotent per request token, each single call atomic.
* Transport failures (`StoreUnavailable` in the spec's error taxonomy) are
  injected by explicit Boolean fault flags, one per store call a phase makes;
  a failed call leaves the store unchanged.
-/

instance {ε α : Type} [DecidableEq ε] [DecidableEq α] : DecidableEq (Except ε α) := fun x y =>
  match x, y with
  | .ok a, .ok b => if h : a = b then .isTrue (by rw [h]) else .isFalse (by simp [h])
  | .error a, .error b => if h : a = b then .isTrue (by rw [h]) else .isFalse (by simp [h])
  | .ok _, .error _ => .isFalse (by simp)
  | .error _, .ok _ => .isFalse (by simp)

/-- JavaScript values reaching the validator (the `externalId` field of the
parsed secret document; `undefined` stands for an absent field). -/
inductive JsValue where
  | undefined
  | null
  | bool (b : Bool)
  | num (n : Int)
  | str (s : String)
  | obj
  deriving Repr, DecidableEq

/-- JavaScript truthiness, as tested by `if (!externalId)`. -/
def truthy : JsValue → Bool
  | .undefined => false
  | .null => false
  | .bool b => b
  | .num n => n != 0
  | .str s => s != ""
  | .obj => true

/-- Reason codes of the validator's failures (spec §4.2); each corresponds to
one `throw` site of `validateExternalId` in the lambda. -/
inductive ValidationReason where
  | missing
  | wrongType
  | tooShort
  | tooLong
  | invalidCharacters
  deriving Repr, DecidableEq

/-- One character class of the regex `[a-zA-Z0-9]`. -/
def isAlnumChar (c : Char) : Bool :=
  ('a' ≤ c && c ≤ 'z') || ('A' ≤ c && c ≤ 'Z') || ('0' ≤ c && c ≤ '9')

/-- The test `/^[a-zA-Z0-9]+$/.test(s)`: at least one character, all from the
class `[a-zA-Z0-9]`. -/
def matchesAlnumRegex (s : String) : Bool :=
  s != "" && s.data.all isAlnumChar

/-- `validateExternalId` of the lambda: the chain of guard clauses
(`!externalId` / `typeof !== "string"` / `length < 8` / `length > 1224` /
regex), each throwing with its reason, translated to `Except`. -/
def validateExternalId (externalId : JsValue) : Except ValidationReason Unit :=
  if !truthy externalId then .error .missing
  else
    match externalId with
    | .str s =>
      if s.length < 8 then .error .tooShort
      else if s.length > 1224 then .error .tooLong
      else if !matchesAlnumRegex s then .error .invalidCharacters
      else .ok ()
    | _ => .error .wrongType

/-- The generator's alphabet string (62 symbols). -/
def characters : String :=
  "ABCDEFGHIJKLMNOPQRSTUVWXYZabcdefghijklmnopqrstuvwxyz0123456789"

/-- `characters.charAt(b % characters.length)`: the character one random byte
`b` is mapped to at each position of the generated id. -/
def charFromByte (b : Nat) : Char :=
  characters.data.getD (b % characters.length) 'A'

/-- `generateSecureExternalId` of the lambda, with the 32 bytes returned by
`crypto.randomBytes(32)` made an explicit argument: position `i` of the result
is `characters.charAt(randomValues[i] % characters.length)`. -/
def generateSecureExternalId (randomValues : Fin 32 → Fin 256) : String :=
  String.mk (List.ofFn fun i : Fin 32 => charFromByte (randomValues i).val)

/-- Stage labels the lambda manipulates (`AWSCURRENT`, `AWSPENDING`). -/
inductive Stage where
  | current
  | pending
  deriving Repr, DecidableEq

/-- One version of the secret. Modelled from the spec: a version is an
immutable value plus the request token that created it; the version identifier
of a version created by `PutSecretValue` is its `ClientRequestToken`, so the
token doubles as `id`. `secretString`, when present, is the stored document;
it is represented by its single `externalId` field (`JsValue.undefined` for a
document lacking the field). -/
structure Version where
  id : String
  secretString : Option JsValue
  deriving Repr, DecidableEq

/-- Store state. Modelled from the spec: a set of versions plus a mapping from
each stage label to at most one version (the data-model invariant "each stage
label is attached to exactly zero or one version" is structural here). -/
structure StoreState where
  versions : List Version
  currentId : Option String
  pendingId : Option String
  deriving Repr, DecidableEq

/-- Errors surfaced by a phase, following the spec's taxonomy (§7). -/
inductive RotError where
  | notFound
  | storeUnavailable
  | noSecretString
  | validation (reason : ValidationReason)
  | invalidStep (step : String)
  deriving Repr, DecidableEq

/-- Modelled from the spec: `PutPending` — `PutSecretValueCommand` with
`ClientRequestToken = token` and `VersionStages = ["AWSPENDING"]`. Idempotent
per token: if a version for that exact token already exists the call is a
no-op success; otherwise it creates the version and attaches `PENDING` to it
(moving the label off any other holder, labels being attached to at most one
version). -/
def putSecretValuePending (s : StoreState) (token : String) (value : JsValue) :
    StoreState :=
  if s.versions.any (fun v => v.id == token) then s
  else
    { versions := ⟨token, some value⟩ :: s.versions
      currentId := s.currentId
      pendingId := some token }

/-- Modelled from the spec: `GetSecretValueCommand` with `VersionId = token`
and `VersionStage = "AWSPENDING"` — the version whose creation token equals
`token` and which currently carries `PENDING`; `NotFound` otherwise. -/
def getSecretValuePending (s : StoreState) (token : String) :
    Except RotError Version :=
  match s.versions.find? (fun v => v.id == token) with
  | some v => if s.pendingId = some token then .ok v else .error .notFound
  | none => .error .notFound

/-- Modelled from the spec: `UpdateSecretVersionStageCommand` — a single
atomic stage-label reassignment. With `moveTo = some v` the label is moved
onto version `v` (which must exist), leaving every other version without it;
with `moveTo = none` the label is removed from `removeFrom` if that version
currently holds it. -/
def updateSecretVersionStage (s : StoreState) (stage : Stage)
    (moveTo removeFrom : Option String) : Except RotError StoreState :=
  match moveTo with
  | some v =>
    if s.versions.any (fun w => w.id == v) then
      match stage with
      | .current => .ok { s with currentId := some v }
      | .pending => .ok { s with pendingId := some v }
    else .error .notFound
  | none =>
    match stage with
    | .current => .ok { s with currentId := if s.currentId = removeFrom then none else s.currentId }
    | .pending => .ok { s with pendingId := if s.pendingId = removeFrom then none else s.pendingId }

/-- Step 1, `createSecret`: generate a fresh candidate
(`generateSecureExternalId`), serialize it as `{ externalId: ... }` and stage
it `PENDING` under the request token. `fault` injects a transport failure of
the single store call. -/
def createSecret (s : StoreState) (token : String)
    (randomValues : Fin 32 → Fin 256) (fault : Bool) :
    Except RotError Unit × StoreState :=
  let newExternalId := generateSecureExternalId randomValues
  if fault then (.error .storeUnavailable, s)
  else (.ok (), putSecretValuePending s token (.str newExternalId))

/-- Step 2, `setSecret`: a deliberate no-op that succeeds. -/
def setSecret (s : StoreState) (_token : String) :
    Except RotError Unit × StoreState :=
  (.ok (), s)

/-- Step 3, `testSecret`: read the `PENDING` version for the token back from
the store, fail without a secret string, otherwise validate the stored
`externalId`. Read-only. -/
def testSecret (s : StoreState) (token : String) (fault : Bool) :
    Except RotError Unit × StoreState :=
  if fault then (.error .storeUnavailable, s)
  else
    match getSecretValuePending s token with
    | .error e => (.error e, s)
    | .ok ver =>
      match ver.secretString with
      | none => (.error .noSecretString, s)
      | some payload =>
        match validateExternalId payload with
        | .error reason => (.error (.validation reason), s)
        | .ok _ => (.ok (), s)

/-- Step 4, `finishSecret`: first store call moves `AWSCURRENT` onto the
token's version (removing it from `previousVersionId`); if a
`previousVersionId` was supplied, a second, separate store call then removes
`AWSPENDING` from it. `fault1`/`fault2` inject transport failures of the two
calls. -/
def finishSecret (s : StoreState) (token : String)
    (previousVersionId : Option String) (fault1 fault2 : Bool) :
    Except RotError Unit × StoreState :=
  if fault1 then (.error .storeUnavailable, s)
  else
    match updateSecretVersionStage s .current (some token) previousVersionId with
    | .error e => (.error e, s)
    | .ok s1 =>
      match previousVersionId with
      | none => (.ok (), s1)
      | some prev =>
        if fault2 then (.error .storeUnavailable, s1)
        else
          match updateSecretVersionStage s1 .pending none (some prev) with
          | .error e => (.error e, s1)
          | .ok s2 => (.ok (), s2)

/-- The rotation event the trigger supplies to the handler. -/
structure RotationEvent where
  secretId : String
  clientRequestToken : String
  step : String
  previousVersionId : Option String
  deriving Repr, DecidableEq

/-- A successful handler invocation returns `{ statusCode: 200 }`. -/
structure RotationResponse where
  statusCode : Nat
  deriving Repr, DecidableEq

/-- The lambda handler: dispatch on the step name, propagate every failure to
the trigger (the `catch` block rethrows), return `{ statusCode: 200 }` on
success. `randomValues` is the entropy consumed if the step generates a
value; `fault1`/`fault2` the transport faults of the store calls made. -/
def handler (ev : RotationEvent) (s : StoreState)
    (randomValues : Fin 32 → Fin 256) (fault1 fault2 : Bool) :
    Except RotError RotationResponse × StoreState :=
  let run : Except RotError Unit × StoreState :=
    match ev.step with
    | "createSecret" => createSecret s ev.clientRequestToken randomValues fault1
    | "setSecret" => setSecret s ev.clientRequestToken
    | "testSecret" => testSecret s ev.clientRequestToken fault1
    | "finishSecret" => finishSecret s ev.clientRequestToken ev.previousVersionId fault1 fault2
    | other => (.error (.invalidStep other), s)
  match run with
  | (.ok _, s') => (.ok ⟨200⟩, s')
  | (.error e, s') => (.error e, s')

/-- Observable actions a phase performs, in program order: calls of the value
generator, of the store client, and of the validator. -/
inductive TraceEvent where
  | generateValue (value : String)
  | putSecretValue (token : String) (value : JsValue)
  | getSecretValue (token : String)
  | updateStage (stage : Stage) (moveTo removeFrom : Option String)
  | validate (value : JsValue)
  deriving Repr, DecidableEq

/-- Whether an observable action is a call of `validateExternalId`. -/
def TraceEvent.isValidatorCall : TraceEvent → Bool
  | .validate _ => true
  | _ => false

/-- The actions `createSecret` performs, in order: generate the candidate,
then stage it with one `PutSecretValue` call. -/
def createSecretTrace (_s : StoreState) (token : String)
    (randomValues : Fin 32 → Fin 256) : List TraceEvent :=
  [.generateValue (generateSecureExternalId randomValues),
   .putSecretValue token (.str (generateSecureExternalId randomValues))]

/-- The actions `testSecret` performs, in order: one `GetSecretValue` call,
then — when a stored document was found — a validator call on the stored
`externalId`. -/
def testSecretTrace (s : StoreState) (token : String) : List TraceEvent :=
  .getSecretValue token ::
    (match getSecretValuePending s token with
     | .error _ => []
     | .ok ver =>
       match ver.secretString with
       | none => []
       | some payload => [.validate payload])

/-- One phase invocation of the orchestrator: which phase, with which token,
displaced-version id, entropy and injected faults. -/
inductive RotStep where
  | createSecret (randomValues : Fin 32 → Fin 256) (fault : Bool)
  | setSecret
  | testSecret (fault : Bool)
  | finishSecret (previousVersionId : Option String) (fault1 fault2 : Bool)

/-- A phase invocation: the request token together with the phase data. -/
structure Invocation where
  token : String
  step : RotStep

/-- The store state an invocation leaves behind. -/
def invoke (s : StoreState) (i : Invocation) : StoreState :=
  match i.step with
  | .createSecret rv f => (createSecret s i.token rv f).2
  | .setSecret => (setSecret s i.token).2
  | .testSecret f => (testSecret s i.token f).2
  | .finishSecret prev f1 f2 => (finishSecret s i.token prev f1 f2).2

/-- Every store state observable while `finishSecret` runs: the state after
each committed store call (a reader may run between the two calls). -/
def finishSecretStates (s : StoreState) (token : String)
    (previousVersionId : Option String) (fault1 fault2 : Bool) :
    List StoreState :=
  if fault1 then [s]
  else
    match updateSecretVersionStage s .current (some token) previousVersionId with
    | .error _ => [s]
    | .ok s1 =>
      match previousVersionId with
      | none => [s1]
      | some prev =>
        if fault2 then [s1]
        else
          match updateSecretVersionStage s1 .pending none (some prev) with
          | .error _ => [s1]
          | .ok s2 => [s1, s2]

/-- Every store state observable while one invocation runs (the state it
starts from is accounted for at the sequence level). -/
def invocationStates (s : StoreState) (i : Invocation) : List StoreState :=
  match i.step with
  | .createSecret rv f => [(createSecret s i.token rv f).2]
  | .setSecret => [s]
  | .testSecret _ => [s]
  | .finishSecret prev f1 f2 => finishSecretStates s i.token prev f1 f2

/-- Every store state observable at any point while a sequence of phase
invocations runs, the starting state included. -/
def seqStates (s : StoreState) : List Invocation → List StoreState
  | [] => [s]
  | i :: rest => s :: (invocationStates s i ++ seqStates (invoke s i) rest)

/-- "Some version currently holds the `CURRENT` stage label": the reader-side
non-absence check (with stage labels attached to at most one version, this is
"exactly one version holds `CURRENT`"). -/
def hasCurrent (s : StoreState) : Bool :=
  s.versions.any fun v => s.currentId == some v.id

example : validateExternalId (.str "AbCd1234") = .ok () := by decide

/-- Modelled from the spec: the failure reason the claim's reading of §4.2
predicts — the first applicable of `Missing` ("value absent/empty"),
`WrongType` ("not a string-shaped value"), `TooShort` (length < 8), `TooLong`
(length > 1224), `InvalidCharacters` (a character outside `[A-Za-z0-9]`);
`none` for a valid value. Kept separate from `validateExternalId` (translated
from the code) so the two can be compared. -/
def specClaimedReason : JsValue → Option ValidationReason
  | .undefined => some .missing
  | .null => some .missing
  | .str s =>
    if s = "" then some .missing
    else if s.length < 8 then some .tooShort
    else if s.length > 1224 then some .tooLong
    else if !s.data.all isAlnumChar then some .invalidCharacters
    else none
  | _ => some .wrongType

/-- Modelled from the spec: whether one validation rule of §4.2, read in
isolation, is violated by a value (`Missing`: absent or empty; `WrongType`:
not a string; `TooShort`/`TooLong`/`InvalidCharacters`: a string breaking the
respective bound). -/
def ruleViolated : ValidationReason → JsValue → Bool
  | .missing, v =>
    match v with
    | .undefined => true
    | .null => true
    | .str s => s == ""
    | _ => false
  | .wrongType, v =>
    match v with
    | .str _ => false
    | _ => true
  | .tooShort, v =>
    match v with
    | .str s => decide (s.length < 8)
    | _ => false
  | .tooLong, v =>
    match v with
    | .str s => decide (s.length > 1224)
    | _ => false
  | .invalidCharacters, v =>
    match v with
    | .str s => !s.data.all isAlnumChar
    | _ => false

/-- The fixed order in which the claim lists the validation rules. -/
def ruleOrder : List ValidationReason :=
  [.missing, .wrongType, .tooShort, .tooLong, .invalidCharacters]

/-- The rules a value violates, in the fixed order. -/
def violatedRules (v : JsValue) : List ValidationReason :=
  ruleOrder.filter fun r => ruleViolated r v

/-- The first violated rule in the fixed order, if any. -/
def firstViolatedRule (v : JsValue) : Option ValidationReason :=
  (violatedRules v).head?

/-- A constant entropy source: every random byte is `0`. -/
def zeroEntropy : Fin 32 → Fin 256 := fun _ => 0

/-- A constant entropy source: every random byte is `1`. -/
def oneEntropy : Fin 32 → Fin 256 := fun _ => 1

/-- A store holding one populated version `v0` tagged `CURRENT`. -/
def sampleStore : StoreState :=
  { versions := [⟨"v0", some (.str "OldValue123")⟩]
    currentId := some "v0"
    pendingId := none }

/-- A store mid-rotation: `v0` is `CURRENT`, the candidate version `t1`
(created under request token `t1`) is `PENDING`. -/
def midRotationStore : StoreState :=
  { versions := [⟨"v0", some (.str "OldValue123")⟩, ⟨"t1", some (.str "NewValue456")⟩]
    currentId := some "v0"
    pendingId := some "t1" }

lemma hasCurrent_set_pending (s : StoreState) (x : Option String) :
    hasCurrent { s with pendingId := x } = hasCurrent s := rfl

lemma testSecret_state (s : StoreState) (token : String) (fault : Bool) :
    (testSecret s token fault).2 = s := by
  unfold testSecret
  split
  · rfl
  · split
    · rfl
    · split
      · rfl
      · split <;> rfl

lemma hasCurrent_put (s : StoreState) (token : String) (value : JsValue)
    (h : hasCurrent s = true) :
    hasCurrent (putSecretValuePending s token value) = true := by
  unfold putSecretValuePending
  split
  · exact h
  · simp only [hasCurrent, List.any_eq_true] at h ⊢
    obtain ⟨v, hv, hc⟩ := h
    exact ⟨v, List.mem_cons_of_mem _ hv, hc⟩

lemma update_current_move_shape (s : StoreState) (t : String)
    (rf : Option String) :
    updateSecretVersionStage s .current (some t) rf =
      if s.versions.any (fun w => w.id == t) then
        .ok { s with currentId := some t }
      else .error .notFound :=
  rfl

lemma update_current_ok_shape (s : StoreState) (t : String) (rf : Option String)
    (s' : StoreState)
    (h : updateSecretVersionStage s .current (some t) rf = .ok s') :
    s' = { s with currentId := some t } ∧
      s.versions.any (fun w => w.id == t) = true := by
  rw [update_current_move_shape] at h
  split at h
  · rename_i hc
    simp only [Except.ok.injEq] at h
    exact ⟨h.symm, hc⟩
  · exact absurd h (by simp)

lemma update_pending_remove_shape (s : StoreState) (rf : Option String) :
    updateSecretVersionStage s .pending none rf =
      .ok { s with pendingId := if s.pendingId = rf then none else s.pendingId } :=
  rfl

lemma hasCurrent_update_current_ok (s : StoreState) (t : String)
    (rf : Option String) (s' : StoreState)
    (h : updateSecretVersionStage s .current (some t) rf = .ok s') :
    hasCurrent s' = true := by
  obtain ⟨rfl, hany⟩ := update_current_ok_shape s t rf s' h
  simp only [List.any_eq_true, beq_iff_eq] at hany
  obtain ⟨w, hw, hid⟩ := hany
  simp only [hasCurrent, List.any_eq_true, beq_iff_eq]
  exact ⟨w, hw, by rw [hid]⟩

lemma hasCurrent_finishSecretStates (s : StoreState) (token : String)
    (prev : Option String) (f1 f2 : Bool) (s' : StoreState)
    (hs : hasCurrent s = true)
    (hm : s' ∈ finishSecretStates s token prev f1 f2) :
    hasCurrent s' = true := by
  unfold finishSecretStates at hm
  split at hm
  · simp only [List.mem_singleton] at hm; exact hm ▸ hs
  · split at hm
    · simp only [List.mem_singleton] at hm; exact hm ▸ hs
    · rename_i s1 hok
      have h1 : hasCurrent s1 = true := hasCurrent_update_current_ok _ _ _ _ hok
      split at hm
      · simp only [List.mem_singleton] at hm; exact hm ▸ h1
      · split at hm
        · simp only [List.mem_singleton] at hm; exact hm ▸ h1
        · split at hm
          · simp only [List.mem_singleton] at hm; exact hm ▸ h1
          · rename_i prev' s2 hok2
            rw [update_pending_remove_shape] at hok2
            simp only [Except.ok.injEq] at hok2
            simp at hm
            rcases hm with rfl | rfl
            · exact h1
            · rw [← hok2, hasCurrent_set_pending]; exact h1

lemma hasCurrent_createSecret (s : StoreState) (token : String)
    (rv : Fin 32 → Fin 256) (f : Bool) (hs : hasCurrent s = true) :
    hasCurrent (createSecret s token rv f).2 = true := by
  unfold createSecret
  split
  · exact hs
  · exact hasCurrent_put _ _ _ hs

lemma hasCurrent_finishSecret (s : StoreState) (token : String)
    (prev : Option String) (f1 f2 : Bool) (hs : hasCurrent s = true) :
    hasCurrent (finishSecret s token prev f1 f2).2 = true := by
  unfold finishSecret
  split
  · exact hs
  · split
    · exact hs
    · rename_i s1 hok
      have h1 : hasCurrent s1 = true := hasCurrent_update_current_ok _ _ _ _ hok
      split
      · exact h1
      · split
        · exact h1
        · split
          · exact h1
          · rename_i prev' _ s2 hok2
            rw [update_pending_remove_shape] at hok2
            simp only [Except.ok.injEq] at hok2
            rw [← hok2, hasCurrent_set_pending]; exact h1

lemma hasCurrent_invocationStates (s : StoreState) (i : Invocation)
    (s' : StoreState) (hs : hasCurrent s = true)
    (hm : s' ∈ invocationStates s i) : hasCurrent s' = true := by
  rcases i with ⟨token, step⟩
  simp only [invocationStates] at hm
  cases step with
  | createSecret rv f =>
    simp only [List.mem_singleton] at hm
    exact hm ▸ hasCurrent_createSecret s token rv f hs
  | setSecret => simp only [List.mem_singleton] at hm; exact hm ▸ hs
  | testSecret f => simp only [List.mem_singleton] at hm; exact hm ▸ hs
  | finishSecret prev f1 f2 =>
    exact hasCurrent_finishSecretStates s token prev f1 f2 s' hs hm

lemma hasCurrent_invoke (s : StoreState) (i : Invocation)
    (hs : hasCurrent s = true) : hasCurrent (invoke s i) = true := by
  rcases i with ⟨token, step⟩
  cases step with
  | createSecret rv f =>
    simp only [invoke]; exact hasCurrent_createSecret s token rv f hs
  | setSecret => simp only [invoke]; exact hs
  | testSecret f => simp only [invoke, testSecret_state]; exact hs
  | finishSecret prev f1 f2 =>
    simp only [invoke]; exact hasCurrent_finishSecret s token prev f1 f2 hs
example : validateExternalId (.str "short1") = .error .tooShort := by decide
example : validateExternalId (.str "bad-value!") = .error .invalidCharacters := by decide
example : validateExternalId (.str "") = .error .missing := by decide
example : validateExternalId (.num 0) = .error .missing := by decide
example : charFromByte 0 = 'A' ∧ charFromByte 62 = 'A' ∧ charFromByte 8 = 'I' := by decide

lemma characters_length_eq : characters.length = 62 := by decide

lemma characters_data_alnum :
    ∀ k : Fin 62, isAlnumChar (characters.data.getD k.val 'A') = true := by
  decide

lemma isAlnumChar_charFromByte (b : Nat) :
    isAlnumChar (charFromByte b) = true := by
  have hk : b % characters.length < 62 := by
    rw [characters_length_eq]
    exact Nat.mod_lt _ (by norm_num)
  exact characters_data_alnum ⟨b % characters.length, hk⟩

/-- C9. Generator output form: for every entropy input the generated value is
exactly 32 characters, each from `[A-Za-z0-9]`, and it passes the validator. -/
theorem generateSecureExternalId_form (rv : Fin 32 → Fin 256) :
    (generateSecureExternalId rv).length = 32 ∧
    (generateSecureExternalId rv).data.all isAlnumChar = true ∧
    validateExternalId (.str (generateSecureExternalId rv)) = .ok () := by
  have hdata : (generateSecureExternalId rv).data =
      List.ofFn (fun i : Fin 32 => charFromByte (rv i).val) := rfl
  have hlen : (generateSecureExternalId rv).length = 32 := by
    show (generateSecureExternalId rv).data.length = 32
    rw [hdata, List.length_ofFn]
  have hall : (generateSecureExternalId rv).data.all isAlnumChar = true := by
    rw [hdata, List.all_eq_true]
    intro c hc
    rw [List.mem_ofFn] at hc
    obtain ⟨i, rfl⟩ := hc
    exact isAlnumChar_charFromByte _
  have hne : generateSecureExternalId rv ≠ "" := by
    intro h
    rw [h] at hlen
    exact absurd hlen (by decide)
  refine ⟨hlen, hall, ?_⟩
  simp [validateExternalId, truthy, hne, hlen, matchesAlnumRegex, hall]

set_option maxRecDepth 4096 in
/-- C8 counterexample. The byte-to-symbol map `b ↦ characters.charAt(b % 62)`
is not uniform: `'A'` (alphabet index 0) is produced by 5 of the 256 byte
values while `'I'` (alphabet index 8) is produced by only 4, because
`256 = 4 * 62 + 8`. -/
theorem charFromByte_not_uniform :
    ((List.range 256).countP fun b => charFromByte b == 'A') = 5 ∧
    ((List.range 256).countP fun b => charFromByte b == 'I') = 4 ∧
    'A' ∈ characters.data ∧ 'I' ∈ characters.data ∧ (5 : Nat) ≠ 4 := by
  decide

set_option maxRecDepth 8192 in
/-- C8 amended. Exact distribution of the generator's per-position symbol
map: each of the first 8 alphabet symbols is produced by 5 byte values, each
of the remaining 54 by 4. -/
theorem charFromByte_distribution (k : Fin 62) :
    ((List.range 256).countP fun b =>
        charFromByte b == characters.data.getD k.val 'A') =
      if k.val < 8 then 5 else 4 := by
  revert k
  decide

/-- C4 counterexample. At the truthy-borderline value `0` the code reports
`Missing` (the `!externalId` guard fires on any falsy value), while the
claim's reason table — `Missing` only for an absent or empty value,
`WrongType` for a non-string — predicts `WrongType`. -/
theorem validateExternalId_zero_reason_mismatch :
    validateExternalId (.num 0) = .error .missing ∧
    specClaimedReason (.num 0) = some .wrongType ∧
    ValidationReason.missing ≠ ValidationReason.wrongType := by
  decide

lemma str_ne_empty_of_length {s : String} (h : 8 ≤ s.length) : s ≠ "" := by
  intro hs
  rw [hs] at h
  exact absurd h (by decide)

/-- C4 amended. Full characterization of the validator: success exactly on
strings of length 8..1224 over `[A-Za-z0-9]`; `Missing` exactly on falsy
values (absent, empty string, zero, `false`), `WrongType` on truthy
non-strings, `TooShort` on non-empty strings shorter than 8, `TooLong` on
strings longer than 1224, `InvalidCharacters` on strings of admissible length
containing a character outside `[A-Za-z0-9]`. -/
theorem validateExternalId_characterization (v : JsValue) :
    (validateExternalId v = .ok () ↔
      ∃ s, v = .str s ∧ 8 ≤ s.length ∧ s.length ≤ 1224 ∧
        s.data.all isAlnumChar = true) ∧
    (validateExternalId v = .error .missing ↔ truthy v = false) ∧
    (validateExternalId v = .error .wrongType ↔
      truthy v = true ∧ ∀ s, v ≠ .str s) ∧
    (validateExternalId v = .error .tooShort ↔
      ∃ s, v = .str s ∧ s ≠ "" ∧ s.length < 8) ∧
    (validateExternalId v = .error .tooLong ↔
      ∃ s, v = .str s ∧ s.length > 1224) ∧
    (validateExternalId v = .error .invalidCharacters ↔
      ∃ s, v = .str s ∧ 8 ≤ s.length ∧ s.length ≤ 1224 ∧
        s.data.all isAlnumChar = false) := by
  cases v with
  | undefined => simp [validateExternalId, truthy]
  | null => simp [validateExternalId, truthy]
  | obj => simp [validateExternalId, truthy]
  | bool b => cases b <;> simp [validateExternalId, truthy]
  | num n =>
    by_cases hn : n = 0 <;> simp [validateExternalId, truthy, hn]
  | str s =>
    by_cases hs : s = ""
    · subst hs
      simp [validateExternalId, truthy]
    · by_cases h8 : s.length < 8
      · have h12 : ¬ s.length > 1224 := by omega
        simp [validateExternalId, truthy, hs, h8, h12, matchesAlnumRegex]
      · by_cases h12 : s.length > 1224
        · simp [validateExternalId, truthy, hs, h8, h12, matchesAlnumRegex]
        · by_cases hall : s.data.all isAlnumChar
          · simp [validateExternalId, truthy, hs, h8, h12, matchesAlnumRegex, hall]
            rw [List.all_eq_true] at hall
            exact ⟨⟨by omega, by omega, hall⟩, fun _ _ => hall⟩
          · simp [validateExternalId, truthy, hs, h8, h12, matchesAlnumRegex, hall]
            simp only [List.all_eq_true, not_forall, Bool.not_eq_true, exists_prop] at hall
            obtain ⟨x, hx, hfx⟩ := hall
            exact ⟨fun _ _ => ⟨x, hx, hfx⟩, by omega, by omega, ⟨x, hx, hfx⟩⟩

/-- C10. Reason precedence: whenever a value violates at least two of the
validation rules, the validator reports the first violated rule in the fixed
order Missing, WrongType, TooShort, TooLong, InvalidCharacters. -/
theorem validateExternalId_first_violated (v : JsValue)
    (h : 2 ≤ (violatedRules v).length) :
    ∃ r, firstViolatedRule v = some r ∧ validateExternalId v = .error r := by
  cases v with
  | undefined => exact ⟨.missing, by decide, by decide⟩
  | null => exact ⟨.missing, by decide, by decide⟩
  | obj => exact absurd h (by decide)
  | bool b =>
    refine absurd h ?_
    cases b <;> decide
  | num n =>
    refine absurd h ?_
    simp [violatedRules, ruleOrder, ruleViolated, List.filter]
  | str s =>
    by_cases hs : s = ""
    · subst hs
      exact ⟨.missing, by decide, by decide⟩
    · by_cases h8 : s.length < 8
      · have h12 : ¬ s.length > 1224 := by omega
        have hbeq : (s == "") = false := by simp [hs]
        refine ⟨.tooShort, ?_, ?_⟩
        · simp [firstViolatedRule, violatedRules, ruleOrder, ruleViolated,
            List.filter, hbeq, h8, h12]
        · simp [validateExternalId, truthy, hs, h8]
      · by_cases h12 : s.length > 1224
        · have hbeq : (s == "") = false := by simp [hs]
          refine ⟨.tooLong, ?_, ?_⟩
          · simp [firstViolatedRule, violatedRules, ruleOrder, ruleViolated,
              List.filter, hbeq, h8, h12]
          · simp [validateExternalId, truthy, hs, h8, h12]
        · refine absurd h ?_
          have hbeq : (s == "") = false := by simp [hs]
          by_cases hall : s.data.all isAlnumChar <;>
            simp [violatedRules, ruleOrder, ruleViolated, List.filter,
              hbeq, h8, h12, hall]

/-- C10 witness: the 3-character string `"ab!"` violates both `TooShort` and
`InvalidCharacters`, and the validator reports `TooShort`, the first in the
fixed order. -/
theorem validateExternalId_first_violated_witness :
    2 ≤ (violatedRules (.str "ab!")).length ∧
    ∃ r, firstViolatedRule (.str "ab!") = some r ∧
      validateExternalId (.str "ab!") = .error r :=
  ⟨by decide, validateExternalId_first_violated (.str "ab!") (by decide)⟩

/-- C1. Per-token idempotency of `createSecret`: from a state with no version
for the token, two invocations with the same token (and arbitrary, possibly
different entropy) both succeed and leave exactly one `PENDING` version for
the token, holding the value generated by the first invocation — the second
invocation neither errors nor overwrites. -/
theorem createSecret_idempotent_per_token (s : StoreState) (token : String)
    (e1 e2 : Fin 32 → Fin 256)
    (hfresh : ∀ v ∈ s.versions, v.id ≠ token) :
    (createSecret s token e1 false).1 = .ok () ∧
    (createSecret (createSecret s token e1 false).2 token e2 false).1 = .ok () ∧
    (createSecret (createSecret s token e1 false).2 token e2 false).2.pendingId =
      some token ∧
    (createSecret (createSecret s token e1 false).2 token e2 false).2.versions.filter
        (fun v => v.id == token) =
      [⟨token, some (.str (generateSecureExternalId e1))⟩] := by
  have hany : (s.versions.any fun v => v.id == token) = false := by
    rw [List.any_eq_false]
    intro v hv
    simp only [beq_iff_eq]
    exact hfresh v hv
  have hput1 : putSecretValuePending s token (.str (generateSecureExternalId e1)) =
      { versions := ⟨token, some (.str (generateSecureExternalId e1))⟩ :: s.versions
        currentId := s.currentId
        pendingId := some token } := by
    unfold putSecretValuePending
    rw [hany]
    rfl
  have hfil : s.versions.filter (fun v => v.id == token) = [] := by
    rw [List.filter_eq_nil_iff]
    intro v hv
    simp only [beq_iff_eq]
    exact hfresh v hv
  have hc1 : (createSecret s token e1 false).2 =
      { versions := ⟨token, some (.str (generateSecureExternalId e1))⟩ :: s.versions
        currentId := s.currentId
        pendingId := some token } := hput1
  have hc2 : (createSecret (createSecret s token e1 false).2 token e2 false).2 =
      { versions := ⟨token, some (.str (generateSecureExternalId e1))⟩ :: s.versions
        currentId := s.currentId
        pendingId := some token } := by
    rw [hc1]
    show putSecretValuePending _ token (.str (generateSecureExternalId e2)) = _
    unfold putSecretValuePending
    rw [if_pos]
    simp
  refine ⟨rfl, rfl, ?_, ?_⟩
  · rw [hc2]
  · rw [hc2]
    simp [List.filter_cons, hfil]

/-- C1 witness: concrete run of the two invocations from `sampleStore` with
the fresh token `"t1"` and two different entropy sources. -/
theorem createSecret_idempotent_per_token_witness :
    (∀ v ∈ sampleStore.versions, v.id ≠ "t1") ∧
    ((createSecret sampleStore "t1" zeroEntropy false).1 = .ok () ∧
     (createSecret (createSecret sampleStore "t1" zeroEntropy false).2 "t1"
        oneEntropy false).1 = .ok () ∧
     (createSecret (createSecret sampleStore "t1" zeroEntropy false).2 "t1"
        oneEntropy false).2.pendingId = some "t1" ∧
     (createSecret (createSecret sampleStore "t1" zeroEntropy false).2 "t1"
        oneEntropy false).2.versions.filter (fun v => v.id == "t1") =
       [⟨"t1", some (.str (generateSecureExternalId zeroEntropy))⟩]) :=
  ⟨by decide,
   createSecret_idempotent_per_token sampleStore "t1" zeroEntropy oneEntropy
     (by decide)⟩

/-- C2. No-gap invariant: from any state in which some version holds
`CURRENT`, every store state observable at any intermediate point of any
sequence of phase invocations (arbitrary tokens, entropy and injected
transport faults, including both points inside `finishSecret`'s two-call
reassignment) still has a version holding `CURRENT`. -/
theorem rotation_current_never_absent (invs : List Invocation) (s : StoreState)
    (h : hasCurrent s = true) :
    ∀ s' ∈ seqStates s invs, hasCurrent s' = true := by
  induction invs generalizing s with
  | nil =>
    intro s' hm
    simp [seqStates] at hm
    subst hm
    exact h
  | cons i rest ih =>
    intro s' hm
    simp only [seqStates, List.mem_cons, List.mem_append] at hm
    rcases hm with rfl | hm | hm
    · exact h
    · exact hasCurrent_invocationStates s i s' h hm
    · exact ih (invoke s i) (hasCurrent_invoke s i h) s' hm

/-- A concrete full rotation attempt: create, test, finish. -/
def demoInvocations : List Invocation :=
  [⟨"t1", .createSecret zeroEntropy false⟩,
   ⟨"t1", .testSecret false⟩,
   ⟨"t1", .finishSecret (some "v0") false false⟩]

/-- C2 witness: the invariant propagated through a concrete full rotation
attempt from `sampleStore`. -/
theorem rotation_current_never_absent_witness :
    hasCurrent sampleStore = true ∧
    ∀ s' ∈ seqStates sampleStore demoInvocations, hasCurrent s' = true :=
  ⟨by decide, rotation_current_never_absent demoInvocations sampleStore (by decide)⟩

/-- C3 counterexample. With the first store call (the `CURRENT` move)
succeeding and the second (the `PENDING` cleanup of `v0`) failing,
`finishSecret` fails, yet `CURRENT` has already moved from `v0` to `t1`:
failure does not leave `CURRENT` unchanged, because the two reassignments are
separate store calls, not one atomic step. -/
theorem finishSecret_fail_changes_current :
    (finishSecret midRotationStore "t1" (some "v0") false true).1 =
      .error .storeUnavailable ∧
    (finishSecret midRotationStore "t1" (some "v0") false true).2.currentId =
      some "t1" ∧
    midRotationStore.currentId = some "v0" ∧
    (some "t1" : Option String) ≠ some "v0" := by
  decide

/-- C3 amended. `finishSecret` is atomic per store call, not across both:
whenever it fails, the store is either untouched (failure in or before the
first call) or exactly in the state where `CURRENT` has moved onto the
token's version with nothing else changed (failure in the second,
`PENDING`-cleanup call). -/
theorem finishSecret_fail_per_call_atomic (s : StoreState) (token : String)
    (prev : Option String) (f1 f2 : Bool) (e : RotError)
    (h : (finishSecret s token prev f1 f2).1 = .error e) :
    (finishSecret s token prev f1 f2).2 = s ∨
    (finishSecret s token prev f1 f2).2 = { s with currentId := some token } := by
  by_cases hf1 : f1
  · left
    simp [finishSecret, hf1]
  · rcases hcall : updateSecretVersionStage s .current (some token) prev with e1 | s1
    · left
      simp [finishSecret, hf1, hcall]
    · obtain ⟨hshape, hany⟩ := update_current_ok_shape _ _ _ _ hcall
      cases prev with
      | none => simp [finishSecret, hf1, hcall] at h
      | some p =>
        by_cases hf2 : f2
        · right
          simp [finishSecret, hf1, hcall, hf2, hshape]
        · simp [finishSecret, hf1, hcall, hf2, update_pending_remove_shape] at h

/-- C3 amended witness: a failure of the first store call leaves the store
untouched. -/
theorem finishSecret_fail_per_call_atomic_witness :
    (finishSecret midRotationStore "t1" (some "v0") true false).1 =
      .error .storeUnavailable ∧
    ((finishSecret midRotationStore "t1" (some "v0") true false).2 =
        midRotationStore ∨
     (finishSecret midRotationStore "t1" (some "v0") true false).2 =
        { midRotationStore with currentId := some "t1" }) :=
  ⟨by decide,
   finishSecret_fail_per_call_atomic midRotationStore "t1" (some "v0") true false
     .storeUnavailable (by decide)⟩

/-- C5 counterexample. The validator does not run during `createSecret`: the
phase's action trace contains no validator call (while `testSecret`'s trace
on a found version contains exactly one) — there is only one call site, not
two. -/
theorem createSecret_no_validator_call :
    (createSecretTrace sampleStore "t1" zeroEntropy).countP
        TraceEvent.isValidatorCall = 0 ∧
    (testSecretTrace midRotationStore "t1").countP
        TraceEvent.isValidatorCall = 1 := by
  decide

/-- C5 amended. The validator runs at exactly one call site: never during
`createSecret` (the freshly generated candidate is staged unvalidated), and
during `testSecret` on the value read back from the store, whose success is
exactly the validator's verdict. -/
theorem validator_single_call_site (s : StoreState) (token : String)
    (rv : Fin 32 → Fin 256) :
    (createSecretTrace s token rv).countP TraceEvent.isValidatorCall = 0 ∧
    (∀ ver payload, getSecretValuePending s token = .ok ver →
      ver.secretString = some payload →
      TraceEvent.validate payload ∈ testSecretTrace s token ∧
      ((testSecret s token false).1 = .ok () ↔
        validateExternalId payload = .ok ())) := by
  constructor
  · rfl
  · intro ver payload hget hpay
    constructor
    · simp [testSecretTrace, hget, hpay]
    · rcases hval : validateExternalId payload with r | u
      · simp [testSecret, hget, hpay, hval]
      · simp [testSecret, hget, hpay, hval]

/-- C5 amended witness: concrete traces at `midRotationStore`. -/
theorem validator_single_call_site_witness :
    (createSecretTrace midRotationStore "t1" zeroEntropy).countP
        TraceEvent.isValidatorCall = 0 ∧
    (TraceEvent.validate (.str "NewValue456") ∈
        testSecretTrace midRotationStore "t1" ∧
      ((testSecret midRotationStore "t1" false).1 = .ok () ↔
        validateExternalId (.str "NewValue456") = .ok ())) :=
  ⟨(validator_single_call_site midRotationStore "t1" zeroEntropy).1,
   (validator_single_call_site midRotationStore "t1" zeroEntropy).2
     ⟨"t1", some (.str "NewValue456")⟩ (.str "NewValue456")
     (by decide) (by decide)⟩

/-- C6. Retried `finishSecret` is an idempotent no-op: after a successful
`finishSecret` with some token and displaced version, re-invoking it with the
same arguments (no faults) succeeds and leaves the store — in particular
which version holds `CURRENT` — unchanged. -/
theorem finishSecret_retry_idempotent (s : StoreState) (token : String)
    (prev : Option String)
    (h : (finishSecret s token prev false false).1 = .ok ()) :
    finishSecret (finishSecret s token prev false false).2 token prev
        false false =
      (.ok (), (finishSecret s token prev false false).2) := by
  rcases hcall : updateSecretVersionStage s .current (some token) prev with e1 | s1
  · simp [finishSecret, hcall] at h
  · obtain ⟨hshape, hany⟩ := update_current_ok_shape _ _ _ _ hcall
    subst hshape
    cases prev with
    | none =>
      have hfin : finishSecret s token none false false =
          (.ok (), { s with currentId := some token }) := by
        simp [finishSecret, hcall]
      rw [hfin]
      have hcall2 : updateSecretVersionStage { s with currentId := some token }
          .current (some token) none = .ok { s with currentId := some token } := by
        rw [update_current_move_shape, if_pos hany]
      simp [finishSecret, hcall2]
    | some p =>
      have hfin : finishSecret s token (some p) false false =
          (.ok (), { s with currentId := some token, pendingId := (if s.pendingId = some p then none else s.pendingId) }) := by
        simp [finishSecret, hcall, update_pending_remove_shape]
      rw [hfin]
      have hq : (if s.pendingId = some p then none else s.pendingId) ≠ some p := by
        split
        · simp
        · assumption
      have hcall2 : updateSecretVersionStage
          { s with currentId := some token, pendingId := (if s.pendingId = some p then none else s.pendingId) }
          .current (some token) (some p) =
          .ok { s with currentId := some token, pendingId := (if s.pendingId = some p then none else s.pendingId) } := by
        rw [update_current_move_shape, if_pos hany]
      have hcall3 : updateSecretVersionStage
          { s with currentId := some token, pendingId := (if s.pendingId = some p then none else s.pendingId) }
          .pending none (some p) =
          .ok { s with currentId := some token, pendingId := (if s.pendingId = some p then none else s.pendingId) } := by
        rw [update_pending_remove_shape]
        simp [hq]
      simp [finishSecret, hcall2, hcall3]

/-- C6 witness: concrete double `finishSecret` from `midRotationStore`. -/
theorem finishSecret_retry_idempotent_witness :
    (finishSecret midRotationStore "t1" (some "v0") false false).1 = .ok () ∧
    finishSecret (finishSecret midRotationStore "t1" (some "v0") false false).2
        "t1" (some "v0") false false =
      (.ok (), (finishSecret midRotationStore "t1" (some "v0") false false).2) :=
  ⟨by decide,
   finishSecret_retry_idempotent midRotationStore "t1" (some "v0") (by decide)⟩

/-- C7. `testSecret` ordering fault and validation: when no `PENDING` version
created under the request token exists, the invocation fails with `NotFound`,
propagated unchanged through the handler (no crash, no silent success); when
such a version exists with a stored document, `testSecret` succeeds exactly
when the validator accepts the stored value, and it never mutates the
store. -/
theorem testSecret_notFound_and_validation (s : StoreState) (token : String) :
    (((∀ v ∈ s.versions, v.id ≠ token) ∨ s.pendingId ≠ some token) →
      handler ⟨"secret", token, "testSecret", none⟩ s zeroEntropy false false =
        (.error .notFound, s)) ∧
    (∀ ver payload, s.versions.find? (fun v => v.id == token) = some ver →
      s.pendingId = some token → ver.secretString = some payload →
      ((testSecret s token false).1 = .ok () ↔
        validateExternalId payload = .ok ()) ∧
      (testSecret s token false).2 = s) := by
  constructor
  · intro hyp
    have hget : getSecretValuePending s token = .error .notFound := by
      unfold getSecretValuePending
      rcases hfind : s.versions.find? (fun v => v.id == token) with _ | v
      · rw [hfind]
      · rw [hfind]
        have hp : s.pendingId ≠ some token := by
          rcases hyp with hall | hp
          · exfalso
            have hmem := List.mem_of_find?_eq_some hfind
            have hpred := List.find?_some hfind
            simp only [beq_iff_eq] at hpred
            exact hall v hmem hpred
          · exact hp
        simp [hp]
    simp [handler, testSecret, hget]
  · intro ver payload hfind hp hpay
    have hget : getSecretValuePending s token = .ok ver := by
      unfold getSecretValuePending
      rw [hfind]
      simp [hp]
    constructor
    · rcases hval : validateExternalId payload with r | u
      · simp [testSecret, hget, hpay, hval]
      · simp [testSecret, hget, hpay, hval]
    · exact testSecret_state s token false

/-- C7 witness: a fresh token `"t9"` fails with `NotFound` through the
handler, while the staged token `"t1"` is judged exactly by the validator. -/
theorem testSecret_notFound_and_validation_witness :
    handler ⟨"secret", "t9", "testSecret", none⟩ midRotationStore zeroEntropy
        false false = (.error .notFound, midRotationStore) ∧
    ((testSecret midRotationStore "t1" false).1 = .ok () ↔
      validateExternalId (.str "NewValue456") = .ok ()) :=
  ⟨(testSecret_notFound_and_validation midRotationStore "t9").1
     (Or.inl (by decide)),
   ((testSecret_notFound_and_validation midRotationStore "t1").2
     ⟨"t1", some (.str "NewValue456")⟩ (.str "NewValue456")
     (by decide) (by decide) (by decide)).1⟩
